import Mathlib

/-!
Verification of the smrec recording-control core against its specification.

Each definition below is a shallow embedding of a function of the Rust
source (file and function named in its doc comment).  Machine integers
(`u8`, `usize`) are modelled as `Nat`, with explicit `% 2 ^ 8` / `% 2 ^ 64`
wraps at the points where the source can overflow.  Fallible functions
return `Except String` mirroring `anyhow::Result`; nom parsers return
`Option` (the caller discards nom's error detail).  Definitions whose doc
comment starts with `Spec model:` follow the specification's words instead
and are only compared against the source-derived definitions.
-/

namespace Smrec

/-- Modelled from the spec: the `Action` enum of `src/types.rs`, a file not
present in the sources; the spec's data model defines it as the tagged
variant `Start`, `Stop`, or `Err(reason: text)`, and every `match` over it
in `main.rs`, `midi.rs` and `osc.rs` is exhaustive over exactly these three
variants. -/
inductive Action where
  | start : Action
  | stop : Action
  | err : String → Action
deriving DecidableEq, Repr

/-! ## Capture callback pipeline (`src/stream.rs`) -/

/-- Rust `slice::chunks(n)`: consecutive chunks of length `n`, the last one
possibly shorter.  The source calls it with `n = channels_to_record.len()`,
which is positive whenever any channel is recorded (Rust panics at `n = 0`;
we return `[]` there to stay total). -/
def chunksOfGo (n : Nat) : Nat → List α → List (List α)
  | _, [] => []
  | 0, _ :: _ => []
  | fuel + 1, x :: xs => (x :: xs).take n :: chunksOfGo n fuel ((x :: xs).drop n)

/-- Entry point for `slice::chunks(n)`; the fuel `l.length` never runs out
because each step consumes at least one element when `n ≠ 0`. -/
def chunksOf (n : Nat) (l : List α) : List (List α) :=
  if n = 0 then [] else chunksOfGo n l.length l

/-- The inner loop of `process` in `src/stream.rs` (lines 78–82): for each
`(channel_idx, sample)` of one frame, push the sample onto
`channel_buffer[channel_idx]`. -/
def pushFrame (buffers : List (List α)) (frame : List α) : List (List α) :=
  buffers.enum.map fun p =>
    match frame[p.1]? with
    | some sample => p.2 ++ [sample]
    | none => p.2

/-- Embedding of `process` in `src/stream.rs` (lines 53–93), restricted to the buffer
computation: allocate one empty buffer per recorded channel, then walk the
interleaved `data` in chunks of `channels_to_record.len()` and push every
sample of each chunk onto the buffer of its position in the chunk.  Note
the chunk stride is the *recorded*-channel count and no sample is
discarded. -/
def processChannelBuffers (channels_to_record : List Nat) (data : List α) :
    List (List α) :=
  (chunksOf channels_to_record.length data).foldl pushFrame
    (List.replicate channels_to_record.length [])

/-- Spec model: the capture algorithm as the specification states it
(§4.3): partition the buffer into frames of length = *device* channel
count; for each frame extract, for each channel index in the
RecordedChannelSet, that channel's sample into that channel's buffer,
discarding the other channels. -/
def specCaptureDeinterleave (deviceChannels : Nat) (recorded : List Nat)
    (data : List α) : List (List α) :=
  recorded.map fun c =>
    (chunksOf deviceChannels data).filterMap fun frame => frame[c]?

/-! ## Channel selection (`src/config.rs`, `choose_channels_to_record`) -/

/-- The `i - 1` of `choose_channels_to_record`: `usize` subtraction, which
wraps at `i = 0` (release mode). -/
def usizeWrapSub1 (i : Nat) : Nat := (i + (2 ^ 64 - 1)) % 2 ^ 64

/-- The exclusion loop of `choose_channels_to_record` (lines 29–38): for
each channel to exclude, find its position and remove it, or bail with
"Channel … is meant to be excluded but it does not exist.". -/
def excludeLoop : List Nat → List Nat → Except String (List Nat)
  | channels, [] => Except.ok channels
  | channels, c :: rest =>
    if channels.contains c then excludeLoop (channels.erase c) rest
    else
      Except.error ("Channel " ++ toString ((c + 1) % 2 ^ 64) ++
        " is meant to be excluded but it does not exist.")

/-- Embedding of `choose_channels_to_record` in `src/config.rs` (lines 16–46).  The
include path maps each 1-based index to `i - 1` and returns it verbatim —
no sorting, deduplication or bound check; the exclude path removes the
mapped indices from `0..channels`; both lists given is an error; neither
given selects all channels. -/
def choose_channels_to_record (includeOpt excludeOpt : Option (List Nat))
    (deviceChannels : Nat) : Except String (List Nat) :=
  match includeOpt, excludeOpt with
  | some inc, none => Except.ok (inc.map usizeWrapSub1)
  | none, some exc => excludeLoop (List.range deviceChannels) (exc.map usizeWrapSub1)
  | some _, some _ => Except.error "Using --exclude and --include together is not allowed."
  | none, none => Except.ok (List.range deviceChannels)

/-! ## Writer finalization (`src/main.rs`, `finalize_writers_if_some`)

A `WriterHandle` is `Arc<Mutex<Option<WavWriter>>>`; we model a live
writer by its file id (`Nat`) and the handle by `Option Nat`.  The shared
`Arc<Mutex<Option<WriterHandles>>>` container is `Option (List (Option Nat))`. -/

/-- The loop body of `finalize_writers_if_some` (lines 370–374): take each
populated handle and finalize (close) it, in order; returns the ids closed. -/
def finalizeHandles : List (Option Nat) → List Nat
  | [] => []
  | none :: rest => finalizeHandles rest
  | some w :: rest => w :: finalizeHandles rest

/-- Embedding of `finalize_writers_if_some` in `src/main.rs` (lines 367–377): `take()`
the shared container (leaving `none`); if it was populated, close each
populated handle exactly once.  Returns the new container state and the
list of writer ids closed; the source function itself always returns
`Ok(())`. -/
def finalize_writers_if_some (container : Option (List (Option Nat))) :
    Option (List (Option Nat)) × List Nat :=
  match container with
  | none => (none, [])
  | some handles => (none, finalizeHandles handles)

/-! ## OSC inbound dispatch (`src/osc.rs`) -/

/-- An OSC argument (`rosc::OscType`); the inbound handler never inspects
arguments, so only the string case (used outbound) is distinguished. -/
inductive OscArg where
  | string : String → OscArg
  | other : OscArg
deriving DecidableEq

/-- The type `rosc::OscPacket`: a message with an address and arguments, or a
bundle of nested packets. -/
inductive OscPacket where
  | message (addr : String) (args : List OscArg) : OscPacket
  | bundle (content : List OscPacket) : OscPacket

/-- Embedding of `handle_message` in `src/osc.rs` (lines 182–194): match on the address
string; `/smrec/start` sends `Start`, `/smrec/stop` sends `Stop`, anything
else is ignored.  We return the list of actions sent. -/
def handle_message (addr : String) : List Action :=
  if addr = "/smrec/start" then [Action.start]
  else if addr = "/smrec/stop" then [Action.stop]
  else []

mutual

/-- Embedding of `handle_packet` in `src/osc.rs` (lines 168–180): a message is handled
by `handle_message`; a bundle handles each contained packet recursively. -/
def handle_packet : OscPacket → List Action
  | OscPacket.message addr _ => handle_message addr
  | OscPacket.bundle content => handle_packets content

/-- The `for_each` over `bundle.content` in `handle_packet`. -/
def handle_packets : List OscPacket → List Action
  | [] => []
  | p :: rest => handle_packet p ++ handle_packets rest

end

/-! ## MIDI input matching (`src/midi.rs`) -/

/-- The constant `ANY_CHANNEL_INTERNAL` in `src/midi.rs` line 4: the wildcard channel
sentinel `0xFF`. -/
def ANY_CHANNEL_INTERNAL : Nat := 255

/-- A configured `(channel, start_cc, stop_cc)` triple (`u8` values). -/
abbrev Triple := Nat × Nat × Nat

/-- Embedding of `get_channel` in `src/midi.rs` line 42: `message[0] & 0b0000_1111`. -/
def get_channel (b0 : Nat) : Nat := b0 % 16

/-- The status nibble `message[0] >> 4` matched in `get_message_type`
(`src/midi.rs` lines 29–40); `0xB` is `ControlChange`. -/
def get_message_type_nibble (b0 : Nat) : Nat := b0 / 16

/-- The input-port callback closure of `register_midi_input_hooks` in
`src/midi.rs` (lines 198–257), returning the actions sent to the main
thread in order.  Non-CC messages and CC messages shorter than three bytes
send nothing.  `active_config` collects the triples whose concrete channel
and start-or-stop CC match, but only its *first* element is consulted;
every matching wildcard (255) triple fires independently.  The source
indexes `message[0]` unconditionally; MIDI callbacks never receive an
empty message, and we return `[]` there. -/
def midiInputHook (configs : List Triple) (message : List Nat) : List Action :=
  match message with
  | [] => []
  | b0 :: rest =>
    let channel := get_channel b0
    if get_message_type_nibble b0 = 0xB then
      match rest[0]?, rest[1]? with
      | some cc_number, some value =>
        let active_config := configs.filter fun t =>
          t.1 == channel && (cc_number == t.2.1 || cc_number == t.2.2)
        let any_channel_receive_configs := configs.filter fun t =>
          t.1 == ANY_CHANNEL_INTERNAL && (cc_number == t.2.1 || cc_number == t.2.2)
        let exact :=
          match active_config with
          | [] => []
          | t :: _ =>
            (if t.1 == channel && cc_number == t.2.1 && value == 127
              then [Action.start] else []) ++
            (if t.1 == channel && cc_number == t.2.2 && value == 127
              then [Action.stop] else [])
        let wildcard := any_channel_receive_configs.flatMap fun t =>
          (if cc_number == t.2.1 && value == 127 then [Action.start] else []) ++
          (if cc_number == t.2.2 && value == 127 then [Action.stop] else [])
        exact ++ wildcard
      | _, _ => []
    else []

/-- Spec model: the matching rule as amended — when `value = 127`, the
*first* configured triple whose concrete channel equals the message
channel and whose start or stop CC equals the message CC fires (Start for
its start CC, Stop for its stop CC), and independently every
wildcard-channel triple whose CC matches fires regardless of channel. -/
def specMatchActions (configs : List Triple) (channel cc_number value : Nat) :
    List Action :=
  let exact :=
    match configs.find? fun t =>
        t.1 == channel && (cc_number == t.2.1 || cc_number == t.2.2) with
    | none => []
    | some t =>
      (if cc_number == t.2.1 && value == 127 then [Action.start] else []) ++
      (if cc_number == t.2.2 && value == 127 then [Action.stop] else [])
  let wildcard := (configs.filter fun t =>
      t.1 == ANY_CHANNEL_INTERNAL && (cc_number == t.2.1 || cc_number == t.2.2)).flatMap
    fun t =>
      (if cc_number == t.2.1 && value == 127 then [Action.start] else []) ++
      (if cc_number == t.2.2 && value == 127 then [Action.stop] else [])
  exact ++ wildcard

/-! ## MIDI output acknowledgement (`src/midi.rs`,
`spin_midi_output_thread_if_necessary`) -/

/-- Embedding of `make_cc_message` in `src/midi.rs` line 46: `[0xB0 + channel, cc_num,
value]`, the status byte wrapping as `u8`. -/
def make_cc_message (channel cc_num value : Nat) : List Nat :=
  [(0xB0 + channel) % 2 ^ 8, cc_num, value]

/-- The per-connection dispatch of the output thread in
`spin_midi_output_thread_if_necessary` (`src/midi.rs` lines 317–389): on
`Start` (resp. `Stop`), for each configured triple send the start (resp.
stop) CC with value 127 — on every channel of `for chn in 0..15` (that is
channels 0 through 14) if the triple's channel is the 255 wildcard,
otherwise on the triple's own channel; `Err` sends nothing.  Returns the
messages sent in order. -/
def outputMessagesForAction (configs : List Triple) (action : Action) :
    List (List Nat) :=
  match action with
  | Action.start => configs.flatMap fun t =>
      if t.1 == ANY_CHANNEL_INTERNAL then
        (List.range 15).map fun chn => make_cc_message chn t.2.1 127
      else [make_cc_message t.1 t.2.1 127]
  | Action.stop => configs.flatMap fun t =>
      if t.1 == ANY_CHANNEL_INTERNAL then
        (List.range 15).map fun chn => make_cc_message chn t.2.2 127
      else [make_cc_message t.1 t.2.2 127]
  | Action.err _ => []

/-! ## MIDI mapping DSL parser (`src/midi/parse.rs`)

The nom parsers work on `&str`; we embed them on `List Char`.  A parser
result is `none` on failure (the caller `parse_midi_config` discards nom's
error detail) or `some (rest, value)` with the unconsumed input. -/

/-- A nom parser result. -/
abbrev PResult (α : Type) := Option (List Char × α)

/-- The character class of nom's `multispace0`: space, tab, newline,
carriage return. -/
def isMultispace (c : Char) : Bool :=
  c = ' ' || c = '\t' || c = '\n' || c = '\r'

/-- nom `multispace0`: consume any run of whitespace (always succeeds). -/
def dropMultispace (input : List Char) : List Char :=
  input.dropWhile isMultispace

/-- nom `char(c)`: consume exactly the character `c`. -/
def pchar (c : Char) (input : List Char) : PResult Char :=
  match input with
  | [] => none
  | x :: rest => if x = c then some (rest, c) else none

/-- nom `digit1`: one or more ASCII digits. -/
def digit1 (input : List Char) : PResult (List Char) :=
  match input.takeWhile Char.isDigit with
  | [] => none
  | d :: ds => some (input.drop (d :: ds).length, d :: ds)

/-- Numeric value of a digit string (`str::parse` semantics on digits). -/
def digitsToNat (ds : List Char) : Nat :=
  ds.foldl (fun acc c => 10 * acc + (c.toNat - 48)) 0

/-- Embedding of `parse_u8` in `src/midi/parse.rs` (lines 29–31):
`map_res(preceded(multispace0, digit1), str::parse::<u8>)` — leading
whitespace, then digits whose value must fit in `u8`. -/
def parse_u8 (input : List Char) : PResult Nat :=
  match digit1 (dropMultispace input) with
  | some (rest, ds) =>
    let n := digitsToNat ds
    if n ≤ 255 then some (rest, n) else none
  | none => none

/-- Embedding of `parse_u8_or_star` in `src/midi/parse.rs` (lines 20–26): try the
number parser first, else `char('*')` mapped to `255` (note the star
branch does not skip leading whitespace). -/
def parse_u8_or_star (input : List Char) : PResult Nat :=
  match parse_u8 input with
  | some r => some r
  | none =>
    match pchar '*' input with
    | some (rest, _) => some (rest, 255)
    | none => none

/-- nom `take_until("[")`: the input up to (not including) the first `[`;
fails when no `[` occurs. -/
def take_until_bracket (input : List Char) : PResult (List Char) :=
  if input.contains '[' then
    some (input.dropWhile (fun c => c != '['), input.takeWhile (fun c => c != '['))
  else none

/-- Rust `str::trim_end` as used on port names (ASCII whitespace in
practice). -/
def trimEndChars (l : List Char) : List Char :=
  (l.reverse.dropWhile Char.isWhitespace).reverse

/-- Embedding of `parse_port_name` in `src/midi/parse.rs` (lines 34–39): skip leading
whitespace, take until `[`, trim the name's trailing whitespace. -/
def parse_port_name (input : List Char) : PResult (List Char) :=
  match take_until_bracket (dropMultispace input) with
  | some (rest, name) => some (rest, trimEndChars name)
  | none => none

/-- Embedding of `parse_channel_and_ccs` in `src/midi/parse.rs` (lines 42–58):
`( chan , start_cc , stop_cc )` with `multispace0` before every token as
in the source combinator tree. -/
def parse_channel_and_ccs (input : List Char) : Option (List Char × Triple) := do
  let (i1, _) ← pchar '(' (dropMultispace input)
  let (i2, chn) ← parse_u8_or_star (dropMultispace i1)
  let (i3, _) ← pchar ',' (dropMultispace (dropMultispace i2))
  let (i4, start_cc) ← parse_u8 i3
  let (i5, _) ← pchar ',' (dropMultispace i4)
  let (i6, stop_cc) ← parse_u8 (dropMultispace i5)
  let (i7, _) ← pchar ')' (dropMultispace i6)
  some (i7, (chn, start_cc, stop_cc))

/-- The separator `preceded(multispace0, char(','))` of both
`separated_list0` uses. -/
def sepComma (input : List Char) : PResult Unit :=
  match pchar ',' (dropMultispace input) with
  | some (rest, _) => some (rest, ())
  | none => none

/-- Iteration of nom `separated_list0` after the first element: parse
separator then element, stopping (and backtracking the separator) as soon
as either fails.  Both separator and element always consume at least one
character here, so `fuel` = remaining length never runs out. -/
def sepList0Go (sep : List Char → PResult Unit) (elem : List Char → PResult α) :
    Nat → List Char → List α → List Char × List α
  | 0, input, acc => (input, acc.reverse)
  | fuel + 1, input, acc =>
    match sep input with
    | none => (input, acc.reverse)
    | some (afterSep, _) =>
      match elem afterSep with
      | none => (input, acc.reverse)
      | some (afterElem, a) => sepList0Go sep elem fuel afterElem (a :: acc)

/-- nom `separated_list0(sep, elem)`: zero or more `elem` separated by
`sep`; an empty list when the first element fails. -/
def sepList0 (sep : List Char → PResult Unit) (elem : List Char → PResult α)
    (input : List Char) : List Char × List α :=
  match elem input with
  | none => (input, [])
  | some (rest, a) => sepList0Go sep elem rest.length rest [a]

/-- Embedding of `parse_list` in `src/midi/parse.rs` (lines 61–67):
`[ triple , triple , … ]`. -/
def parse_list (input : List Char) : Option (List Char × List Triple) := do
  let (i1, _) ← pchar '[' (dropMultispace input)
  let (i2, items) := sepList0 sepComma parse_channel_and_ccs i1
  let (i3, _) ← pchar ']' (dropMultispace i2)
  some (i3, items)

/-- Embedding of `parse_port` in `src/midi/parse.rs` (lines 70–84): port name (up to
`[`), then the triple list. -/
def parse_port (input : List Char) : Option (List Char × (List Char × List Triple)) := do
  let (i1, name) ← parse_port_name (dropMultispace input)
  let (i2, _) ← take_until_bracket i1
  let (i3, list) ← parse_list i2
  some (i3, (name, list))

/-- Embedding of `parse_midi_config_raw` in `src/midi/parse.rs` (lines 88–94): the
whole `[ port , port , … ]` configuration; unconsumed trailing input is
returned, not rejected. -/
def parse_midi_config_raw (input : List Char) :
    Option (List Char × List (List Char × List Triple)) := do
  let (i1, _) ← pchar '[' (dropMultispace input)
  let (i2, ports) := sepList0 sepComma parse_port i1
  let (i3, _) ← pchar ']' (dropMultispace i2)
  some (i3, ports)

/-- The `HashMap<String, Vec<(u8,u8,u8)>>` inside `MidiConfig`
(`src/midi.rs` line 52), modelled as an association list with unique keys;
only `insert` and lookup are used. -/
abbrev MidiConfigMap := List (String × List Triple)

/-- The operation `HashMap::insert`: replace the value at an existing key, else add the
entry. -/
def assocInsert : MidiConfigMap → String → List Triple → MidiConfigMap
  | [], k, v => [(k, v)]
  | (k', v') :: rest, k, v =>
    if k' = k then (k, v) :: rest else (k', v') :: assocInsert rest k v

/-- Lookup by port name in the `HashMap` model. -/
def assocLookup : MidiConfigMap → String → Option (List Triple)
  | [], _ => none
  | (k', v) :: rest, k => if k' = k then some v else assocLookup rest k

/-- Embedding of `parse_midi_config` in `src/midi/parse.rs` (lines 97–105): run the raw
parser, mapping any failure to the fixed message
"Can not parse provided MIDI config."; insert each parsed `(name, triples)`
pair into the map in order (a repeated name overwrites the earlier entry). -/
def parse_midi_config (input : String) : Except String MidiConfigMap :=
  match parse_midi_config_raw input.toList with
  | none => Except.error "Can not parse provided MIDI config."
  | some (_, port_configs) =>
    Except.ok (port_configs.foldl (fun m p => assocInsert m (String.mk p.1) p.2) [])

/-- The triple list of the *last* occurrence of `name` among the parsed
port entries (what C10 predicts survives into the map). -/
def lastTripleListFor : List (List Char × List Triple) → String → Option (List Triple)
  | [], _ => none
  | p :: rest, name =>
    match lastTripleListFor rest name with
    | some v => some v
    | none => if String.mk p.1 = name then some p.2 else none

/-! ## Recording session manager (`src/main.rs`)

`new_recording`, `stop_recording` and the receive loop
`listen_and_block_main_thread` are embedded as one-step functions over an
explicit state: the `Rc<RefCell<Option<Stream>>>` container and the shared
writer container.  The fallible collaborator calls (`Stream::pause`,
`SmrecConfig::writers`, `stream::build`, `Stream::play`) are parameters of
an `Env`; the emitted `Event` trace records pausing, finalizing each old
writer, creating each new writer file, and building/playing the stream, in
program order. -/

/-- Whether an audio stream handle is playing or paused. -/
inductive StreamState where
  | playing : StreamState
  | paused : StreamState
deriving DecidableEq, Repr

/-- The session manager's shared state: `stream_container` and the writer
container of `main.rs` (lines 157–158). -/
structure SessionState where
  streamContainer : Option StreamState
  writers : Option (List (Option Nat))
deriving DecidableEq, Repr

/-- Observable steps of a session transition, in program order. -/
inductive Event where
  | pauseStream : Event
  | finalizeWriter : Nat → Event
  | createWriter : Nat → Event
  | buildStream : Event
  | playStream : Event
deriving DecidableEq, Repr

/-- Outcomes of the fallible collaborator calls during one transition:
whether `Stream::pause` succeeds, what `SmrecConfig::writers()` returns
(the ids of the files it would create, or its bail message when the output
base path does not exist), and whether `stream::build` and `Stream::play`
succeed. -/
structure Env where
  pauseOk : Bool
  newWriters : Except String (List Nat)
  buildOk : Bool
  playOk : Bool

/-- Embedding of `new_recording` in `src/main.rs` (lines 302–348).  If a stream is
present it is paused in place (`as_mut`, not taken) and the old writers
are finalized; then new writers are created and installed, the stream is
built, played and stored.  Failure at any step returns early with the
state reached so far: a pause failure leaves everything untouched, a
`writers()` failure leaves the (paused) old stream in the container, and a
build/play failure additionally leaves the freshly created writers
installed.  Returns `(error?, final state, event trace)`. -/
def new_recording (env : Env) (st : SessionState) :
    Option String × SessionState × List Event :=
  let afterPause : Option String × SessionState × List Event :=
    match st.streamContainer with
    | some _ =>
      if env.pauseOk then
        let closed := (finalize_writers_if_some st.writers).2
        (none, { streamContainer := some StreamState.paused, writers := none },
          Event.pauseStream :: closed.map Event.finalizeWriter)
      else (some "pause failed", st, [Event.pauseStream])
    | none => (none, st, [])
  match afterPause with
  | (some e, st1, evs1) => (some e, st1, evs1)
  | (none, st1, evs1) =>
    match env.newWriters with
    | Except.error e => (some e, st1, evs1)
    | Except.ok ws =>
      let st2 : SessionState := { st1 with writers := some (ws.map some) }
      let evs2 := evs1 ++ ws.map Event.createWriter
      if env.buildOk then
        if env.playOk then
          (none, { st2 with streamContainer := some StreamState.playing },
            evs2 ++ [Event.buildStream, Event.playStream])
        else (some "play failed", st2, evs2 ++ [Event.buildStream])
      else (some "build failed", st2, evs2)

/-- Embedding of `stop_recording` in `src/main.rs` (lines 350–365): take the stream out
of the container; if none, success without touching the writers; else
pause it (a pause failure still leaves the container emptied, the stream
dropped) and finalize the writers. -/
def stop_recording (env : Env) (st : SessionState) :
    Option String × SessionState × List Event :=
  match st.streamContainer with
  | some _ =>
    if env.pauseOk then
      let closed := (finalize_writers_if_some st.writers).2
      (none, { streamContainer := none, writers := none },
        Event.pauseStream :: closed.map Event.finalizeWriter)
    else (some "pause failed", { st with streamContainer := none },
      [Event.pauseStream])
  | none => (none, st, [])

/-- One iteration of `listen_and_block_main_thread` in `src/main.rs`
(lines 262–299): on `Start`, run `new_recording` and echo `Start` on
success or `Err("Error starting recording: …")` on failure; on `Stop`,
run `stop_recording` and echo `Stop` or `Err(…)` (the source's stop-error
message also reads "Error starting recording", a copy-paste kept here); a
received `Err` is only logged.  Returns the new state and the actions sent
back on the outbound bus. -/
def listen_step (env : Env) (st : SessionState) (a : Action) :
    SessionState × List Action :=
  match a with
  | Action.start =>
    match new_recording env st with
    | (none, st', _) => (st', [Action.start])
    | (some e, st', _) => (st', [Action.err ("Error starting recording: " ++ e)])
  | Action.stop =>
    match stop_recording env st with
    | (none, st', _) => (st', [Action.stop])
    | (some e, st', _) => (st', [Action.err ("Error starting recording: " ++ e)])
  | Action.err _ => (st, [])

/-! ## Helper lemmas -/

/-- The head of a filtered list is the first element satisfying the
predicate. -/
theorem head?_filter_eq_find? (p : α → Bool) :
    ∀ l : List α, (l.filter p).head? = l.find? p := by
  intro l
  induction l with
  | nil => rfl
  | cons a t ih =>
    cases h : p a <;> simp [List.filter_cons, List.find?_cons, h, ih]

/-- The loop `finalizeHandles` closes exactly the populated handles: each writer id
occurs as often among the closed ids as it occurs populated among the
handles. -/
theorem count_finalizeHandles (w : Nat) :
    ∀ hs : List (Option Nat), (finalizeHandles hs).count w = hs.count (some w) := by
  intro hs
  induction hs with
  | nil => rfl
  | cons h t ih =>
    cases h with
    | none => simp [finalizeHandles, List.count_cons, ih]
    | some v => simp [finalizeHandles, List.count_cons, ih]

/-- Membership in the closed-id list of `finalizeHandles`. -/
theorem mem_finalizeHandles {w : Nat} :
    ∀ {hs : List (Option Nat)}, some w ∈ hs → w ∈ finalizeHandles hs := by
  intro hs
  induction hs with
  | nil => intro h; cases h
  | cons x t ih =>
    intro h
    cases x with
    | none =>
      simp only [List.mem_cons] at h
      rcases h with h | h
      · cases h
      · exact ih h
    | some v =>
      simp only [List.mem_cons, Option.some.injEq] at h
      rcases h with h | h
      · simp [finalizeHandles, h]
      · simp [finalizeHandles, ih h]

/-- The successful results of the exclusion loop are sublists of the
starting channel list. -/
theorem excludeLoop_sublist :
    ∀ (exc channels out : List Nat), excludeLoop channels exc = Except.ok out →
      out.Sublist channels := by
  intro exc
  induction exc with
  | nil =>
    intro channels out h
    simp only [excludeLoop, Except.ok.injEq] at h
    exact h ▸ List.Sublist.refl _
  | cons c rest ih =>
    intro channels out h
    simp only [excludeLoop] at h
    split at h
    · exact (ih _ _ h).trans (List.erase_sublist _ _)
    · cases h

/-! ## Claim theorems -/

/-- Claim C1 (code bug): the spec says the capture callback partitions the
buffer into frames of the device's total channel count and extracts only
the samples at the recorded channel indices, so recording channels 1 and 3
of a 4-channel frame `[a,b,c,d]` should yield buffers `[b]` and `[d]`;
`process` in `src/stream.rs` instead chunks the buffer by the *recorded*
channel count and keeps every sample positionally, producing `[a,c]` and
`[b,d]` on that input. -/
theorem capture_deinterleave_code_bug :
    processChannelBuffers [1, 3] ([10, 20, 30, 40] : List Nat) = [[10, 30], [20, 40]] ∧
    specCaptureDeinterleave 4 [1, 3] ([10, 20, 30, 40] : List Nat) = [[20], [40]] ∧
    processChannelBuffers [1, 3] ([10, 20, 30, 40] : List Nat) ≠
      specCaptureDeinterleave 4 [1, 3] ([10, 20, 30, 40] : List Nat) := by
  refine ⟨by decide, by decide, by decide⟩

/-- Claim C5 (counterexample): the include path of
`choose_channels_to_record` accepts `--include 3,1` on a 2-channel device
and returns `[2, 0]`, which is neither strictly ascending nor within the
device channel count. -/
theorem include_selection_counterexample :
    choose_channels_to_record (some [3, 1]) none 2 = Except.ok [2, 0] ∧
    ¬ (List.Pairwise (· < ·) [2, 0] ∧ ∀ c ∈ [2, 0], c < 2) := by
  constructor
  · rfl
  · rintro ⟨-, hb⟩
    exact absurd (hb 2 (by simp)) (by omega)

/-- Claim C5 (amended): the exclude and default selection paths do return
a strictly ascending list of indices below the device channel count; only
the include path returns its mapped input unvalidated. -/
theorem exclude_default_selection_invariant (excludeOpt : Option (List Nat))
    (n : Nat) (out : List Nat)
    (h : choose_channels_to_record none excludeOpt n = Except.ok out) :
    List.Pairwise (· < ·) out ∧ ∀ c ∈ out, c < n := by
  cases excludeOpt with
  | none =>
    simp only [choose_channels_to_record, Except.ok.injEq] at h
    subst h
    exact ⟨List.pairwise_lt_range n, fun c hc => List.mem_range.mp hc⟩
  | some exc =>
    simp only [choose_channels_to_record] at h
    have sub := excludeLoop_sublist _ _ _ h
    exact ⟨List.Pairwise.sublist sub (List.pairwise_lt_range n),
      fun c hc => List.mem_range.mp (sub.subset hc)⟩

/-- Witness for the amended C5 theorem at `--exclude 1` on a 2-channel
device. -/
theorem exclude_default_selection_invariant_witness :
    List.Pairwise (· < ·) [1] ∧ ∀ c ∈ [1], c < 2 :=
  exclude_default_selection_invariant (some [1]) 2 [1] (by rfl)

/-- Claim C7: finalizing the writer set is idempotent — the first
finalize empties the container and closes every populated handle exactly
once (the closed ids count each populated occurrence exactly once), and a
second finalize on the resulting container is a no-op that closes nothing
and leaves the state unchanged. -/
theorem finalize_writers_idempotent (c : Option (List (Option Nat))) :
    (∀ hs, c = some hs →
      finalize_writers_if_some c = (none, finalizeHandles hs) ∧
      ∀ w, (finalizeHandles hs).count w = hs.count (some w)) ∧
    finalize_writers_if_some (finalize_writers_if_some c).1 =
      ((finalize_writers_if_some c).1, []) := by
  constructor
  · intro hs h
    subst h
    exact ⟨rfl, fun w => count_finalizeHandles w hs⟩
  · cases c <;> rfl

/-- Witness for C7 on a concrete container with two populated handles and
one already-taken handle. -/
theorem finalize_writers_idempotent_witness :
    finalize_writers_if_some (some [some 1, none, some 2]) =
      (none, finalizeHandles [some 1, none, some 2]) ∧
    finalize_writers_if_some (finalize_writers_if_some (some [some 1, none, some 2])).1 =
      ((finalize_writers_if_some (some [some 1, none, some 2])).1, []) :=
  ⟨((finalize_writers_idempotent (some [some 1, none, some 2])).1
      [some 1, none, some 2] rfl).1,
   (finalize_writers_idempotent (some [some 1, none, some 2])).2⟩

/-- Claim C8: an OSC message to `/smrec/start` yields `Start`, one to
`/smrec/stop` yields `Stop`, any other address yields no action, and a
bundle is unpacked recursively, each contained packet handled by the same
rule. -/
theorem osc_packet_dispatch :
    (∀ args, handle_packet (OscPacket.message "/smrec/start" args) = [Action.start]) ∧
    (∀ args, handle_packet (OscPacket.message "/smrec/stop" args) = [Action.stop]) ∧
    (∀ addr args, addr ≠ "/smrec/start" → addr ≠ "/smrec/stop" →
      handle_packet (OscPacket.message addr args) = []) ∧
    (∀ content, handle_packet (OscPacket.bundle content) =
      (content.map handle_packet).flatten) := by
  refine ⟨fun args => rfl, fun args => rfl, fun addr args h1 h2 => ?_, fun content => ?_⟩
  · simp [handle_packet, handle_message, h1, h2]
  · show handle_packets content = _
    induction content with
    | nil => rfl
    | cons p rest ih => simp [handle_packets, ih]

/-- Witness for C8 at the unknown address `/unknown` with no arguments. -/
theorem osc_packet_dispatch_witness :
    handle_packet (OscPacket.message "/unknown" []) = [] :=
  osc_packet_dispatch.2.2.1 "/unknown" [] (by decide) (by decide)

/-- Claim C9: a Start or Stop acknowledgement for a wildcard-channel (255)
output triple is sent exactly on MIDI channels 0 through 14 (`for chn in
0..15`), and the channel-15 acknowledgement message is never among the
messages sent. -/
theorem wildcard_ack_excludes_channel_15 (start_cc stop_cc : Nat) :
    (outputMessagesForAction [(ANY_CHANNEL_INTERNAL, start_cc, stop_cc)] Action.start =
      (List.range 15).map fun chn => make_cc_message chn start_cc 127) ∧
    (outputMessagesForAction [(ANY_CHANNEL_INTERNAL, start_cc, stop_cc)] Action.stop =
      (List.range 15).map fun chn => make_cc_message chn stop_cc 127) ∧
    (∀ m ∈ outputMessagesForAction [(ANY_CHANNEL_INTERNAL, start_cc, stop_cc)] Action.start,
      m ≠ make_cc_message 15 start_cc 127) ∧
    (∀ m ∈ outputMessagesForAction [(ANY_CHANNEL_INTERNAL, start_cc, stop_cc)] Action.stop,
      m ≠ make_cc_message 15 stop_cc 127) := by
  have hstart : outputMessagesForAction [(ANY_CHANNEL_INTERNAL, start_cc, stop_cc)] Action.start =
      (List.range 15).map fun chn => make_cc_message chn start_cc 127 := by
    simp [outputMessagesForAction, ANY_CHANNEL_INTERNAL]
  have hstop : outputMessagesForAction [(ANY_CHANNEL_INTERNAL, start_cc, stop_cc)] Action.stop =
      (List.range 15).map fun chn => make_cc_message chn stop_cc 127 := by
    simp [outputMessagesForAction, ANY_CHANNEL_INTERNAL]
  have key : ∀ cc : Nat, ∀ m ∈ (List.range 15).map fun chn => make_cc_message chn cc 127,
      m ≠ make_cc_message 15 cc 127 := by
    intro cc m hm heq
    rcases List.mem_map.mp hm with ⟨chn, hchn, rfl⟩
    have hlt : chn < 15 := List.mem_range.mp hchn
    have : (0xB0 + chn) % 2 ^ 8 = (0xB0 + 15) % 2 ^ 8 := by
      simpa [make_cc_message] using congrArg (fun l => l.headI) heq
    omega
  exact ⟨hstart, hstop, hstart ▸ key start_cc, hstop ▸ key stop_cc⟩

/-- Witness for C9 at the default start CC 16 / stop CC 17. -/
theorem wildcard_ack_excludes_channel_15_witness :
    make_cc_message 0 16 127 ≠ make_cc_message 15 16 127 :=
  (wildcard_ack_excludes_channel_15 16 17).2.2.1 (make_cc_message 0 16 127) (by decide)

/-- Looking up in a map after `assocInsert` sees the new value at the
inserted key and is unchanged elsewhere. -/
theorem assocLookup_assocInsert (m : MidiConfigMap) (ki kl : String) (v : List Triple) :
    assocLookup (assocInsert m ki v) kl =
      if ki = kl then some v else assocLookup m kl := by
  induction m with
  | nil => by_cases h : ki = kl <;> simp [assocInsert, assocLookup, h]
  | cons p rest ih =>
    obtain ⟨ke, ve⟩ := p
    by_cases h1 : ke = ki
    · subst h1
      by_cases h2 : ke = kl <;> simp [assocInsert, assocLookup, h2]
    · by_cases h2 : ke = kl
      · subst h2
        have h3 : ¬ki = ke := fun hh => h1 hh.symm
        simp [assocInsert, assocLookup, h1, h3]
      · simp [assocInsert, assocLookup, h1, h2, ih]

/-- Folding the parsed port entries into the map makes lookup return the
last occurrence's triple list (falling back to the initial map when the
name does not occur). -/
theorem assocLookup_foldl_ports (ports : List (List Char × List Triple)) :
    ∀ (m0 : MidiConfigMap) (name : String),
      assocLookup (ports.foldl (fun m p => assocInsert m (String.mk p.1) p.2) m0) name =
        match lastTripleListFor ports name with
        | some v => some v
        | none => assocLookup m0 name := by
  induction ports with
  | nil => intro m0 name; rfl
  | cons p rest ih =>
    intro m0 name
    simp only [List.foldl_cons]
    rw [ih]
    cases hlast : lastTripleListFor rest name with
    | some v => simp [lastTripleListFor, hlast]
    | none =>
      rw [assocLookup_assocInsert]
      by_cases h : String.mk p.1 = name <;> simp [lastTripleListFor, hlast, h]

/-- Claim C10: when the DSL lists the same port name more than once,
parsing succeeds and the resulting map keeps exactly the last occurrence's
triple list for that name — earlier duplicates are overwritten by the
`HashMap` insertion. -/
theorem duplicate_ports_last_occurrence_wins (s : String) (rest : List Char)
    (ports : List (List Char × List Triple))
    (h : parse_midi_config_raw s.toList = some (rest, ports)) (name : String) :
    parse_midi_config s = Except.ok
        (ports.foldl (fun m p => assocInsert m (String.mk p.1) p.2) []) ∧
    assocLookup (ports.foldl (fun m p => assocInsert m (String.mk p.1) p.2) []) name =
      lastTripleListFor ports name := by
  constructor
  · unfold parse_midi_config
    rw [h]
  · rw [assocLookup_foldl_ports]
    cases lastTripleListFor ports name <;> rfl

/-- Witness for C10 on `[p[(1,2,3)],p[(4,5,6)]]`, where the port name `p`
occurs twice and only the second triple list survives. -/
theorem duplicate_ports_last_occurrence_wins_witness :
    parse_midi_config "[p[(1,2,3)],p[(4,5,6)]]" = Except.ok
        ([(['p'], [(1, 2, 3)]), (['p'], [(4, 5, 6)])].foldl
          (fun m p => assocInsert m (String.mk p.1) p.2) []) ∧
    assocLookup ([(['p'], [(1, 2, 3)]), (['p'], [(4, 5, 6)])].foldl
          (fun m p => assocInsert m (String.mk p.1) p.2) []) "p" =
      lastTripleListFor [(['p'], [(1, 2, 3)]), (['p'], [(4, 5, 6)])] "p" :=
  duplicate_ports_last_occurrence_wins "[p[(1,2,3)],p[(4,5,6)]]" []
    [(['p'], [(1, 2, 3)]), (['p'], [(4, 5, 6)])] (by rfl) "p"

/-- Claim C6 (counterexample): a non-numeric channel (`x` in
`[port[(x,2,3)]]`) and malformed brackets (`###`) both fail with the same
fixed message, and that message contains neither offending fragment — the
ConfigError does not identify the offending fragment of the input. -/
theorem parse_error_message_counterexample :
    parse_midi_config "[port[(x,2,3)]]" =
      Except.error "Can not parse provided MIDI config." ∧
    parse_midi_config "###" =
      Except.error "Can not parse provided MIDI config." ∧
    'x' ∉ "Can not parse provided MIDI config.".toList ∧
    '#' ∉ "Can not parse provided MIDI config.".toList := by
  refine ⟨rfl, rfl, by decide, by decide⟩

/-- Claim C6 (amended): every parse failure carries the one fixed message
"Can not parse provided MIDI config." (so the error never identifies the
offending fragment); an unmatched delimiter does fail, and the default
well-formed configuration parses successfully. -/
theorem parse_failure_error_message :
    (∀ s m, parse_midi_config s = Except.error m →
      m = "Can not parse provided MIDI config.") ∧
    (∃ e, parse_midi_config "[port[(1,2,3)]" = Except.error e) ∧
    (parse_midi_config "[*[(*,16,17)]]").isOk = true := by
  refine ⟨?_, ⟨"Can not parse provided MIDI config.", rfl⟩, rfl⟩
  intro s m h
  unfold parse_midi_config at h
  split at h
  · injection h with h'
    exact h'.symm
  · cases h

/-- Witness for the amended C6 theorem at the malformed input `###`. -/
theorem parse_failure_error_message_witness :
    "Can not parse provided MIDI config." = "Can not parse provided MIDI config." :=
  parse_failure_error_message.1 "###" "Can not parse provided MIDI config." rfl

/-- Claim C3 (counterexample): with triples `(1,10,11)` and `(1,12,10)` on
a port, the CC message (channel 1, cc 10, value 127) matches the first
triple's start CC and the second triple's stop CC, so the claim predicts
both a Start and a Stop; the hook only consults `active_config[0]` and
emits a single Start. -/
theorem midi_first_exact_match_counterexample :
    midiInputHook [(1, 10, 11), (1, 12, 10)] [0xB1, 10, 127] = [Action.start] ∧
    Action.stop ∉ midiInputHook [(1, 10, 11), (1, 12, 10)] [0xB1, 10, 127] := by
  refine ⟨by decide, by decide⟩

/-- Claim C3 (amended): for a Control-Change message on channel < 16, the
hook's output equals `specMatchActions`: nothing fires unless
`value = 127`; among the exact-channel triples whose channel and
start-or-stop CC match, only the *first* fires; every matching
wildcard-channel triple fires regardless of the message channel; and a
config with neither a wildcard triple nor a triple on the message channel
emits nothing. -/
theorem midi_cc_matching_amended (configs : List Triple)
    (channel cc_number value : Nat) (hch : channel < 16) :
    midiInputHook configs [0xB0 + channel, cc_number, value] =
      specMatchActions configs channel cc_number value ∧
    (value ≠ 127 → midiInputHook configs [0xB0 + channel, cc_number, value] = []) ∧
    (∀ st sp, (ANY_CHANNEL_INTERNAL, st, sp) ∈ configs → value = 127 → cc_number = st →
      Action.start ∈ midiInputHook configs [0xB0 + channel, cc_number, value]) ∧
    (∀ st sp, (ANY_CHANNEL_INTERNAL, st, sp) ∈ configs → value = 127 → cc_number = sp →
      Action.stop ∈ midiInputHook configs [0xB0 + channel, cc_number, value]) ∧
    ((∀ t ∈ configs, t.1 ≠ channel ∧ t.1 ≠ ANY_CHANNEL_INTERNAL) →
      midiInputHook configs [0xB0 + channel, cc_number, value] = []) := by
  have h1 : get_channel (0xB0 + channel) = channel := by
    simp only [get_channel]
    omega
  have h2 : get_message_type_nibble (0xB0 + channel) = 0xB := by
    simp only [get_message_type_nibble]
    omega
  have main : midiInputHook configs [0xB0 + channel, cc_number, value] =
      specMatchActions configs channel cc_number value := by
    simp only [midiInputHook, h1, h2, if_true, List.getElem?_cons_zero,
      List.getElem?_cons_succ, specMatchActions, ite_true]
    rw [← head?_filter_eq_find?]
    cases hf : configs.filter fun t =>
        t.1 == channel && (cc_number == t.2.1 || cc_number == t.2.2) with
    | nil => simp
    | cons t ts =>
      have ht : (t.1 == channel) = true := by
        have hmem : t ∈ configs.filter fun t =>
            t.1 == channel && (cc_number == t.2.1 || cc_number == t.2.2) := by
          rw [hf]; exact List.mem_cons_self t ts
        have hp := (List.mem_filter.mp hmem).2
        simp only [Bool.and_eq_true] at hp
        exact hp.1
      simp [ht, Bool.and_assoc]
  refine ⟨main, ?_, ?_, ?_, ?_⟩
  · intro hv
    have hv' : (value == 127) = false := by
      simpa using hv
    rw [main]
    simp only [specMatchActions, hv', Bool.and_false, if_false]
    have hwild : ∀ l : List Triple,
        (l.flatMap fun t =>
          (if (cc_number == t.2.1 && false : Bool) then [Action.start] else []) ++
          (if (cc_number == t.2.2 && false : Bool) then [Action.stop] else [])) = [] := by
      intro l
      induction l with
      | nil => rfl
      | cons x xs ih => simp [List.flatMap_cons, ih]
    cases configs.find? fun t =>
        t.1 == channel && (cc_number == t.2.1 || cc_number == t.2.2) with
    | none => simp [hwild]
    | some t => simp [hwild]
  · intro st sp hmem hv hcc
    rw [main]
    refine List.mem_append_right _ ?_
    refine List.mem_flatMap.mpr ⟨(ANY_CHANNEL_INTERNAL, st, sp), ?_, ?_⟩
    · exact List.mem_filter.mpr ⟨hmem, by simp [hcc]⟩
    · simp [hcc, hv]
  · intro st sp hmem hv hcc
    rw [main]
    refine List.mem_append_right _ ?_
    refine List.mem_flatMap.mpr ⟨(ANY_CHANNEL_INTERNAL, st, sp), ?_, ?_⟩
    · exact List.mem_filter.mpr ⟨hmem, by simp [hcc]⟩
    · simp [hcc, hv]
  · intro hnone
    rw [main]
    have hfind : (configs.find? fun t =>
        t.1 == channel && (cc_number == t.2.1 || cc_number == t.2.2)) = none := by
      rw [List.find?_eq_none]
      intro t ht
      simp only [Bool.and_eq_true, beq_iff_eq, Bool.not_eq_true]
      intro hcontra
      exact absurd hcontra.1 (hnone t ht).1
    have hfilter : (configs.filter fun t =>
        t.1 == ANY_CHANNEL_INTERNAL && (cc_number == t.2.1 || cc_number == t.2.2)) = [] := by
      rw [List.filter_eq_nil_iff]
      intro t ht
      simp only [Bool.and_eq_true, beq_iff_eq, Bool.not_eq_true]
      intro hcontra
      exact absurd hcontra.1 (hnone t ht).2
    simp [specMatchActions, hfind, hfilter]

/-- Witness for the amended C3 theorem: the default wildcard mapping
`(255,16,17)` receiving (channel 5, cc 16, value 127). -/
theorem midi_cc_matching_amended_witness :
    midiInputHook [(255, 16, 17)] [0xB0 + 5, 16, 127] =
      specMatchActions [(255, 16, 17)] 5 16 127 :=
  (midi_cc_matching_amended [(255, 16, 17)] 5 16 127 (by decide)).1

/-- Claim C2 (counterexample): restarting from a Recording state when
`writers()` fails (missing output base path) pauses the old stream and
finalizes the old writers, but the paused stream handle stays *retained*
in the stream container — the system does not end Idle with no retained
stream. -/
theorem start_failure_retains_paused_stream_counterexample :
    (new_recording
        ⟨true, Except.error "Output path which is provided . does not exist.", true, true⟩
        ⟨some StreamState.playing, some [some 1]⟩).1 =
      some "Output path which is provided . does not exist." ∧
    (new_recording
        ⟨true, Except.error "Output path which is provided . does not exist.", true, true⟩
        ⟨some StreamState.playing, some [some 1]⟩).2.1.streamContainer =
      some StreamState.paused := by
  exact ⟨rfl, rfl⟩

/-- Claim C2 (amended): when any step of `new_recording` fails, the
transition is aborted with an `Err` action reported on the outbound bus
and no stream is ever left playing (assuming the pause itself succeeded):
from Idle the container stays empty, from Recording the old stream ends
paused but remains retained in the container, the old writers are all
finalized, and the stream is never started (`playStream` never occurs in
the trace). -/
theorem new_recording_failure_behavior (env : Env) (st : SessionState) (e : String)
    (h : (new_recording env st).1 = some e) :
    (st.streamContainer = none → (new_recording env st).2.1.streamContainer = none) ∧
    (∀ s, st.streamContainer = some s → env.pauseOk = true →
      (new_recording env st).2.1.streamContainer = some StreamState.paused) ∧
    ((new_recording env st).2.1.streamContainer = some StreamState.playing →
      st.streamContainer = some StreamState.playing ∧ env.pauseOk = false) ∧
    (env.pauseOk = true → ∀ hs, st.writers = some hs → ∀ s, st.streamContainer = some s →
      ∀ w, some w ∈ hs → Event.finalizeWriter w ∈ (new_recording env st).2.2) ∧
    Event.playStream ∉ (new_recording env st).2.2 ∧
    listen_step env st Action.start =
      ((new_recording env st).2.1, [Action.err ("Error starting recording: " ++ e)]) := by
  have hstep : listen_step env st Action.start =
      ((new_recording env st).2.1, [Action.err ("Error starting recording: " ++ e)]) := by
    simp only [listen_step]
    rcases hnr : new_recording env st with ⟨err?, st', evs⟩
    rw [hnr] at h
    simp only at h
    subst h
    rfl
  cases hsc : st.streamContainer with
  | none =>
    cases hw : env.newWriters with
    | error e' =>
      refine ⟨?_, ?_, ?_, ?_, ?_, hstep⟩
      · intro _
        simp [new_recording, hsc, hw]
      · intro s hs'
        cases hs'
      · intro hplay
        rw [show (new_recording env st).2.1 = st by
          simp [new_recording, hsc, hw]] at hplay
        rw [hsc] at hplay
        cases hplay
      · intro _ hs hw' s hss'
        cases hss'
      · simp [new_recording, hsc, hw]
    | ok ws =>
      cases hb : env.buildOk with
      | false =>
        refine ⟨?_, ?_, ?_, ?_, ?_, hstep⟩
        · intro _
          simp [new_recording, hsc, hw, hb]
        · intro s hs'
          cases hs'
        · intro hplay
          rw [show (new_recording env st).2.1.streamContainer = st.streamContainer by
            simp [new_recording, hsc, hw, hb]] at hplay
          rw [hsc] at hplay
          cases hplay
        · intro _ hs hw' s hss'
          cases hss'
        · simp [new_recording, hsc, hw, hb, List.mem_map]
      | true =>
        cases hp : env.playOk with
        | false =>
          refine ⟨?_, ?_, ?_, ?_, ?_, hstep⟩
          · intro _
            simp [new_recording, hsc, hw, hb, hp]
          · intro s hs'
            cases hs'
          · intro hplay
            rw [show (new_recording env st).2.1.streamContainer = st.streamContainer by
              simp [new_recording, hsc, hw, hb, hp]] at hplay
            rw [hsc] at hplay
            cases hplay
          · intro _ hs hw' s hss'
            cases hss'
          · simp [new_recording, hsc, hw, hb, hp, List.mem_map, List.mem_append]
        | true =>
          exfalso
          rw [show (new_recording env st).1 = none by
            simp [new_recording, hsc, hw, hb, hp]] at h
          cases h
  | some s0 =>
    cases hpk : env.pauseOk with
    | false =>
      refine ⟨?_, ?_, ?_, ?_, ?_, hstep⟩
      · intro hn
        cases hn
      · intro s hs' hpk'
        cases hpk'
      · intro hplay
        rw [show (new_recording env st).2.1 = st by
          simp [new_recording, hsc, hpk]] at hplay
        rw [hsc] at hplay
        exact ⟨hplay, rfl⟩
      · intro hpk' _ _ _ _ _ _
        cases hpk'
      · simp [new_recording, hsc, hpk]
    | true =>
      cases hw : env.newWriters with
      | error e' =>
        refine ⟨?_, ?_, ?_, ?_, ?_, hstep⟩
        · intro hn
          cases hn
        · intro s hs' _
          simp [new_recording, hsc, hpk, hw]
        · intro hplay
          rw [show (new_recording env st).2.1.streamContainer = some StreamState.paused by
            simp [new_recording, hsc, hpk, hw]] at hplay
          cases hplay
        · intro _ hs hw' s hss' w hww
          have htr : (new_recording env st).2.2 =
              Event.pauseStream :: (finalizeHandles hs).map Event.finalizeWriter := by
            simp [new_recording, hsc, hpk, hw, hw', finalize_writers_if_some]
          rw [htr]
          exact List.mem_cons_of_mem _ (List.mem_map.mpr ⟨w, mem_finalizeHandles hww, rfl⟩)
        · simp [new_recording, hsc, hpk, hw, List.mem_map]
      | ok ws =>
        cases hb : env.buildOk with
        | false =>
          refine ⟨?_, ?_, ?_, ?_, ?_, hstep⟩
          · intro hn
            cases hn
          · intro s hs' _
            simp [new_recording, hsc, hpk, hw, hb]
          · intro hplay
            rw [show (new_recording env st).2.1.streamContainer = some StreamState.paused by
              simp [new_recording, hsc, hpk, hw, hb]] at hplay
            cases hplay
          · intro _ hs hw' s hss' w hww
            have htr : (new_recording env st).2.2 =
                Event.pauseStream :: (finalizeHandles hs).map Event.finalizeWriter ++
                  ws.map Event.createWriter := by
              simp [new_recording, hsc, hpk, hw, hb, hw', finalize_writers_if_some]
            rw [htr]
            exact List.mem_append_left _
              (List.mem_cons_of_mem _ (List.mem_map.mpr ⟨w, mem_finalizeHandles hww, rfl⟩))
          · simp [new_recording, hsc, hpk, hw, hb, List.mem_map, List.mem_append]
        | true =>
          cases hp : env.playOk with
          | false =>
            refine ⟨?_, ?_, ?_, ?_, ?_, hstep⟩
            · intro hn
              cases hn
            · intro s hs' _
              simp [new_recording, hsc, hpk, hw, hb, hp]
            · intro hplay
              rw [show (new_recording env st).2.1.streamContainer = some StreamState.paused by
                simp [new_recording, hsc, hpk, hw, hb, hp]] at hplay
              cases hplay
            · intro _ hs hw' s hss' w hww
              have htr : (new_recording env st).2.2 =
                  Event.pauseStream :: (finalizeHandles hs).map Event.finalizeWriter ++
                    (ws.map Event.createWriter ++ [Event.buildStream]) := by
                simp [new_recording, hsc, hpk, hw, hb, hp, hw', finalize_writers_if_some]
              rw [htr]
              exact List.mem_append_left _
                (List.mem_cons_of_mem _ (List.mem_map.mpr ⟨w, mem_finalizeHandles hww, rfl⟩))
            · simp [new_recording, hsc, hpk, hw, hb, hp, List.mem_map, List.mem_append]
          | true =>
            exfalso
            rw [show (new_recording env st).1 = none by
              simp [new_recording, hsc, hpk, hw, hb, hp]] at h
            cases h

/-- Witness for the amended C2 theorem: a restart whose `writers()` call
fails leaves the old stream paused but retained. -/
theorem new_recording_failure_behavior_witness :
    (new_recording ⟨true, Except.error "boom", true, true⟩
        ⟨some StreamState.playing, some [some 1]⟩).2.1.streamContainer =
      some StreamState.paused :=
  (new_recording_failure_behavior ⟨true, Except.error "boom", true, true⟩
      ⟨some StreamState.playing, some [some 1]⟩ "boom" rfl).2.1
    StreamState.playing rfl rfl

/-- Claim C4: starting while Recording first pauses the active stream and
finalizes every populated old WriterHandle, and only then creates any of
the new session's writers: the event trace begins with the pause followed
by exactly the finalization of each populated old handle, no finalization
of old writers happens later, and every writer creation lies strictly
after that initial segment — so no file is open under two sessions at once
and writes land entirely in the old, fully finalized session or in the new
one. -/
theorem start_while_recording_finalizes_before_create (env : Env) (st : SessionState)
    (s : StreamState) (hs : List (Option Nat))
    (h1 : st.streamContainer = some s) (h2 : st.writers = some hs)
    (h3 : env.pauseOk = true) :
    ∃ tail,
      (new_recording env st).2.2 =
        Event.pauseStream :: ((finalizeHandles hs).map Event.finalizeWriter ++ tail) ∧
      (∀ w, some w ∈ hs →
        Event.finalizeWriter w ∈ (finalizeHandles hs).map Event.finalizeWriter) ∧
      (∀ w, Event.finalizeWriter w ∉ tail) ∧
      (∀ w, Event.createWriter w ∈ (new_recording env st).2.2 →
        Event.createWriter w ∈ tail) := by
  have hmemfin : ∀ w, some w ∈ hs →
      Event.finalizeWriter w ∈ (finalizeHandles hs).map Event.finalizeWriter :=
    fun w hww => List.mem_map.mpr ⟨w, mem_finalizeHandles hww, rfl⟩
  cases hw : env.newWriters with
  | error e' =>
    have htr : (new_recording env st).2.2 =
        Event.pauseStream :: ((finalizeHandles hs).map Event.finalizeWriter ++ []) := by
      simp [new_recording, h1, h2, h3, hw, finalize_writers_if_some]
    refine ⟨[], htr, hmemfin, ?_, ?_⟩
    · intro w hmem
      cases hmem
    · intro w hcw
      rw [htr] at hcw
      simp [List.mem_cons, List.mem_append, List.mem_map] at hcw
  | ok ws =>
    cases hb : env.buildOk with
    | false =>
      have htr : (new_recording env st).2.2 =
          Event.pauseStream :: ((finalizeHandles hs).map Event.finalizeWriter ++
            ws.map Event.createWriter) := by
        simp [new_recording, h1, h2, h3, hw, hb, finalize_writers_if_some]
      refine ⟨ws.map Event.createWriter, htr, hmemfin, ?_, ?_⟩
      · intro w hmem
        simp [List.mem_map] at hmem
      · intro w hcw
        rw [htr] at hcw
        simp only [List.mem_cons, List.mem_append, List.mem_map] at hcw ⊢
        rcases hcw with hcw | hcw | hcw
        · cases hcw
        · rcases hcw with ⟨a, ha, hcw⟩
          cases hcw
        · exact hcw
    | true =>
      cases hp : env.playOk with
      | false =>
        have htr : (new_recording env st).2.2 =
            Event.pauseStream :: ((finalizeHandles hs).map Event.finalizeWriter ++
              (ws.map Event.createWriter ++ [Event.buildStream])) := by
          simp [new_recording, h1, h2, h3, hw, hb, hp, finalize_writers_if_some]
        refine ⟨ws.map Event.createWriter ++ [Event.buildStream], htr, hmemfin, ?_, ?_⟩
        · intro w hmem
          simp [List.mem_append, List.mem_map] at hmem
        · intro w hcw
          rw [htr] at hcw
          simp only [List.mem_cons, List.mem_append, List.mem_map] at hcw ⊢
          rcases hcw with hcw | hcw | hcw
          · cases hcw
          · rcases hcw with ⟨a, ha, hcw⟩
            cases hcw
          · exact hcw
      | true =>
        have htr : (new_recording env st).2.2 =
            Event.pauseStream :: ((finalizeHandles hs).map Event.finalizeWriter ++
              (ws.map Event.createWriter ++ [Event.buildStream, Event.playStream])) := by
          simp [new_recording, h1, h2, h3, hw, hb, hp, finalize_writers_if_some]
        refine ⟨ws.map Event.createWriter ++ [Event.buildStream, Event.playStream], htr,
          hmemfin, ?_, ?_⟩
        · intro w hmem
          simp [List.mem_append, List.mem_map] at hmem
        · intro w hcw
          rw [htr] at hcw
          simp only [List.mem_cons, List.mem_append, List.mem_map] at hcw ⊢
          rcases hcw with hcw | hcw | hcw
          · cases hcw
          · rcases hcw with ⟨a, ha, hcw⟩
            cases hcw
          · exact hcw

/-- Witness for C4: a restart from Recording with one populated old
writer and two new writer files, all collaborator calls succeeding. -/
theorem start_while_recording_finalizes_before_create_witness :
    ∃ tail,
      (new_recording ⟨true, Except.ok [7, 8], true, true⟩
          ⟨some StreamState.playing, some [some 1]⟩).2.2 =
        Event.pauseStream :: ((finalizeHandles [some 1]).map Event.finalizeWriter ++ tail) ∧
      (∀ w, some w ∈ [some 1] →
        Event.finalizeWriter w ∈ (finalizeHandles [some 1]).map Event.finalizeWriter) ∧
      (∀ w, Event.finalizeWriter w ∉ tail) ∧
      (∀ w, Event.createWriter w ∈ (new_recording ⟨true, Except.ok [7, 8], true, true⟩
          ⟨some StreamState.playing, some [some 1]⟩).2.2 →
        Event.createWriter w ∈ tail) :=
  start_while_recording_finalizes_before_create ⟨true, Except.ok [7, 8], true, true⟩
    ⟨some StreamState.playing, some [some 1]⟩ StreamState.playing [some 1] rfl rfl rfl

end Smrec
